import Mathlib

/-!
Verification of the vacancy-parser repository (HH API client + JSON storage).

The Python sources are shallowly embedded:
* Python scalar values that flow through the code are `PyFlat`
  (None / bool / int / float / str); one level of nesting (the `salary` and
  `snippet` sub-dictionaries, and dictionary-valued fields) is `PyVal`.
  Python floats are idealized as exact rationals (`Rat`); the claims under
  study do not depend on rounding, infinities or NaN.
* Python dictionaries are association lists with unique keys
  (`PyDict`); keyword-argument binding is `List.lookup`.
* Fallible Python code returns `Except PyErr _`; a `try/except` handler is a
  `match` on the body's result.
* `str.strip()` is `pyStrip`, `str.lower()` is `pyLower`, and the substring
  test `a in b` is `strContains` (ASCII-faithful, like the repository's data).
-/

/-- A scalar Python value as it appears in the repository's JSON data. -/
inductive PyFlat where
  | pnone : PyFlat
  | pbool (b : Bool) : PyFlat
  | pint (n : Int) : PyFlat
  | pfloat (q : Rat) : PyFlat
  | pstr (s : String) : PyFlat
deriving DecidableEq, Repr

/-- A Python value: a scalar or a (flat) dictionary, as in the HH raw items
where `salary` and `snippet` are sub-dictionaries of scalars. -/
inductive PyVal where
  | flat (f : PyFlat) : PyVal
  | dict (d : List (String × PyFlat)) : PyVal
deriving DecidableEq, Repr

/-- A Python dictionary with `PyVal` values (raw items, persisted records,
keyword-argument dictionaries). Keys are unique, as in Python. -/
abbrev PyDict := List (String × PyVal)

/-- Python exceptions raised by the embedded code. -/
inductive PyErr where
  | typeError : PyErr
  | attributeError : PyErr
  | valueError : PyErr
  | fileNotFoundError : PyErr
  | jsonDecodeError : PyErr
deriving DecidableEq, Repr

/-- Python truthiness of a scalar. -/
def PyFlat.truthy : PyFlat → Bool
  | .pnone => false
  | .pbool b => b
  | .pint n => n ≠ 0
  | .pfloat q => q ≠ 0
  | .pstr s => s ≠ ""

/-- Python truthiness of a value (an empty dictionary is falsy). -/
def PyVal.truthy : PyVal → Bool
  | .flat f => f.truthy
  | .dict d => d ≠ []

/-- Python `x or d`: the left operand when truthy, otherwise the default. -/
def pyOr (x d : PyVal) : PyVal := if x.truthy then x else d

/-- The whitespace characters removed by Python `str.strip()`. -/
def isPyWS (c : Char) : Bool :=
  c = ' ' ∨ c = '\t' ∨ c = '\n' ∨ c = '\r' ∨ c = '\x0b' ∨ c = '\x0c'

/-- Strip on character lists: drop whitespace from both ends. -/
def stripChars (cs : List Char) : List Char :=
  ((cs.dropWhile isPyWS).reverse.dropWhile isPyWS).reverse

/-- Python `str.strip()`. -/
def pyStrip (s : String) : String := ⟨stripChars s.data⟩

/-- Python `str.lower()` (ASCII case mapping, which covers the data the
repository handles). -/
def pyLower (s : String) : String := ⟨s.data.map Char.toLower⟩

/-- Python `needle in hay` on strings: substring containment. -/
def strContains (hay needle : String) : Bool :=
  (List.range (hay.data.length + 1)).any fun i =>
    List.isPrefixOf needle.data (hay.data.drop i)

/-- Numeric value of a digit list, most significant first. -/
def digitsToNat (cs : List Char) : Nat :=
  cs.foldl (fun a c => a * 10 + (c.toNat - 48)) 0

/-- Split a character list at the first exponent marker `e`/`E`. -/
def splitAtExp : List Char → List Char × Option (List Char)
  | [] => ([], Option.none)
  | c :: rest =>
    if c = 'e' ∨ c = 'E' then ([], some rest)
    else
      let p := splitAtExp rest
      (c :: p.1, p.2)

/-- Parse an optional sign; `true` means negative. -/
def parseSign : List Char → Bool × List Char
  | '-' :: r => (true, r)
  | '+' :: r => (false, r)
  | cs => (false, cs)

/-- Parse an unsigned decimal mantissa `digits`, `digits.digits`, `.digits`
or `digits.` into a rational. -/
def parseMant (cs : List Char) : Option Rat :=
  let ip := cs.takeWhile Char.isDigit
  match cs.dropWhile Char.isDigit with
  | [] => if ip.isEmpty then Option.none else some ((digitsToNat ip : Int) : Rat)
  | '.' :: fr =>
    let fp := fr.takeWhile Char.isDigit
    if (fr.dropWhile Char.isDigit).isEmpty then
      if ip.isEmpty ∧ fp.isEmpty then Option.none
      else some (((digitsToNat ip : Int) : Rat) +
                 ((digitsToNat fp : Int) : Rat) / ((10 : Rat) ^ fp.length))
    else Option.none
  | _ => Option.none

/-- Parse a signed decimal exponent. -/
def parseExp (cs : List Char) : Option Int :=
  let p := parseSign cs
  if p.2.isEmpty ∨ ¬ p.2.all Char.isDigit then Option.none
  else some (if p.1 then -(digitsToNat p.2 : Int) else (digitsToNat p.2 : Int))

/-- `10 ^ k` for an integer exponent, as a rational. -/
def ratPow10 (k : Int) : Rat :=
  if 0 ≤ k then (10 : Rat) ^ k.toNat else 1 / (10 : Rat) ^ (-k).toNat

/-- Embedding of Python `float(s)` on decimal literals: surrounding
whitespace, optional sign, decimal mantissa, optional exponent. (`inf`,
`nan` and digit underscores are outside the model.) -/
def parseFloatStr (s : String) : Option Rat :=
  let p0 := parseSign (pyStrip s).data
  let p1 := splitAtExp p0.2
  match parseMant p1.1 with
  | Option.none => Option.none
  | some m =>
    let mval : Rat := if p0.1 then -m else m
    match p1.2 with
    | Option.none => some mval
    | some ecs =>
      match parseExp ecs with
      | Option.none => Option.none
      | some k => some (mval * ratPow10 k)

/-- Python `int(q)` on a real number: truncation toward zero. -/
def ratTrunc (q : Rat) : Int :=
  if q < 0 then -((-q).floor) else q.floor

namespace Vacancy

/-- `Vacancy._validate_title`: non-string or empty-string input yields the
sentinel, otherwise the stripped title. -/
def validate_title (title : PyVal) : String :=
  match title with
  | .flat (.pstr s) => if s = "" then "Название не указано" else pyStrip s
  | _ => "Название не указано"

/-- `Vacancy._validate_url`: non-string or empty-string input yields `""`,
otherwise the stripped URL. -/
def validate_url (url : PyVal) : String :=
  match url with
  | .flat (.pstr s) => if s = "" then "" else pyStrip s
  | _ => ""

/-- `Vacancy._validate_salary`: `None` and `""` map to 0; otherwise
`int(float(salary))`, with `ValueError`/`TypeError` absorbed into 0. -/
def validate_salary (salary : PyVal) : Int :=
  match salary with
  | .flat .pnone => 0
  | .flat (.pbool b) => ratTrunc (if b then 1 else 0)
  | .flat (.pint n) => ratTrunc (n : Rat)
  | .flat (.pfloat q) => ratTrunc q
  | .flat (.pstr s) =>
    if s = "" then 0
    else
      match parseFloatStr s with
      | some q => ratTrunc q
      | Option.none => 0
  | .dict _ => 0

end Vacancy

/-- The `Vacancy` record after construction: title and url are validated
strings, the salary bounds are validated integers, and the remaining three
fields hold the (truthy) argument or its sentinel default. -/
structure Vacancy where
  title : String
  url : String
  salary_from : Int
  salary_to : Int
  currency : PyVal
  description : PyVal
  requirements : PyVal
deriving DecidableEq, Repr

namespace Vacancy

/-- `Vacancy.__init__`: validate title, url and both salary bounds, and
apply the `x or default` sentinels to currency, description, requirements. -/
def init (title url salary_from salary_to currency description requirements : PyVal) :
    Vacancy where
  title := validate_title title
  url := validate_url url
  salary_from := validate_salary salary_from
  salary_to := validate_salary salary_to
  currency := pyOr currency (.flat (.pstr "RUB"))
  description := pyOr description (.flat (.pstr "Описание не указано"))
  requirements := pyOr requirements (.flat (.pstr "Требования не указаны"))

/-- `Vacancy.avg_salary`: the mean of the bounds when both are positive,
the positive bound when only one is, otherwise 0. -/
def avg_salary (v : Vacancy) : Rat :=
  if 0 < v.salary_from ∧ 0 < v.salary_to then
    ((v.salary_from : Rat) + (v.salary_to : Rat)) / 2
  else if 0 < v.salary_from then (v.salary_from : Rat)
  else if 0 < v.salary_to then (v.salary_to : Rat)
  else 0

/-- `Vacancy.to_dict`: the persisted dictionary form of a record. -/
def to_dict (v : Vacancy) : PyDict :=
  [("title", .flat (.pstr v.title)),
   ("url", .flat (.pstr v.url)),
   ("salary_from", .flat (.pint v.salary_from)),
   ("salary_to", .flat (.pint v.salary_to)),
   ("currency", v.currency),
   ("description", v.description),
   ("requirements", v.requirements)]

end Vacancy

/-- Python `d.get(k, dflt)` on a `PyDict`. -/
def dictGet (d : PyDict) (k : String) (dflt : PyVal) : PyVal :=
  (List.lookup k d).getD dflt

/-- `Vacancy(**item)`: keyword-argument binding of a persisted dictionary to
`Vacancy.__init__`. `title` and `url` have no default, so a dictionary
missing either raises `TypeError`; unknown keys land in `**kwargs` and are
ignored; the other five parameters take their declared defaults. -/
def vacancyOfDict (item : PyDict) : Except PyErr Vacancy :=
  match List.lookup "title" item, List.lookup "url" item with
  | some t, some u =>
    .ok (Vacancy.init t u
      (dictGet item "salary_from" (.flat .pnone))
      (dictGet item "salary_to" (.flat .pnone))
      (dictGet item "currency" (.flat .pnone))
      (dictGet item "description" (.flat (.pstr "")))
      (dictGet item "requirements" (.flat (.pstr ""))))
  | _, _ => .error .typeError

/-- `data.get(k) or {}` followed by attribute access `.get` on the result:
an absent or falsy value yields the empty dictionary, a truthy scalar would
raise `AttributeError` at the subsequent `.get`. -/
def getSubDict (data : PyDict) (k : String) : Except PyErr (List (String × PyFlat)) :=
  match (List.lookup k data).getD (.flat .pnone) with
  | .dict d => .ok d
  | .flat f => if f.truthy then .error .attributeError else .ok []

/-- `Vacancy.from_hh_dict` on a structured mapping (the non-mapping case
raises `ValueError` before this point and is outside the claim's scope). -/
def from_hh_dict (data : PyDict) : Except PyErr Vacancy := do
  let salary ← getSubDict data "salary"
  let snippet ← getSubDict data "snippet"
  pure (Vacancy.init
    (dictGet data "name" (.flat (.pstr "")))
    (dictGet data "alternate_url" (.flat (.pstr "")))
    (.flat ((List.lookup "from" salary).getD .pnone))
    (.flat ((List.lookup "to" salary).getD .pnone))
    (.flat ((List.lookup "currency" salary).getD .pnone))
    (.flat ((List.lookup "responsibility" snippet).getD (.pstr "")))
    (.flat ((List.lookup "requirement" snippet).getD (.pstr ""))))

/-- Sequential effectful map over a list, mirroring the evaluation order of a
Python list comprehension: the first raised exception aborts the whole
comprehension. -/
def mapExcept (f : α → Except ε β) : List α → Except ε (List β)
  | [] => .ok []
  | a :: as => do
    let b ← f a
    let bs ← mapExcept f as
    pure (b :: bs)

/-- Sequential effectful filter over a list, mirroring a Python list
comprehension with a condition. -/
def filterExcept (p : α → Except ε Bool) : List α → Except ε (List α)
  | [] => .ok []
  | a :: as => do
    let b ← p a
    let rest ← filterExcept p as
    pure (if b then a :: rest else rest)

/-- `json.dump(item, sort_keys=True)` as written in `add_vacancies`: the
required file argument `fp` is missing, so the call raises `TypeError`
before serializing anything. -/
def json_dump_missing_fp (_item : PyDict) : Except PyErr String :=
  .error .typeError

/-- `JSONStorage.add_vacancies` as written: build the set of canonical forms
of the existing entries, keep the incoming records whose canonical form is
new, append and save. Every serialization call is `json_dump_missing_fp`,
so the whole operation raises `TypeError` as soon as the existing collection
or the incoming list is non-empty. The first argument is the collection
`_load_from_file` returned; the result is what `_save_to_file` would write. -/
def add_vacancies (existing : List PyDict) (vacancies : List Vacancy) :
    Except PyErr (List PyDict) := do
  let existingKeys ← mapExcept json_dump_missing_fp existing
  let new_data := vacancies.map Vacancy.to_dict
  let unique_new ← filterExcept
    (fun item => do
      let s ← json_dump_missing_fp item
      pure (decide (s ∉ existingKeys)))
    new_data
  pure (existing ++ unique_new)

/-- Insert a key-value pair into a key-sorted association list. -/
def insertByKey (p : String × PyVal) : PyDict → PyDict
  | [] => [p]
  | q :: qs => if p.1 ≤ q.1 then p :: q :: qs else q :: insertByKey p qs

/-- Key-sort an association list (insertion sort). -/
def sortByKey : PyDict → PyDict
  | [] => []
  | p :: ps => insertByKey p (sortByKey ps)

/-- Modelled from the spec: the canonical serialized form with stable field
ordering that `add` compares records by — the intent behind the
`json.dump(item, sort_keys=True)` calls (which, as written, lack the file
argument `json.dumps` would not need). The key-sorted dictionary itself
stands for its serialization; the spec's argument needs only that identical
dictionaries get identical canonical forms. -/
def canonicalForm (d : PyDict) : PyDict := sortByKey d

/-- Modelled from the spec: `add` as specified — deduplicate the incoming
records against the canonical forms of the persisted collection, append the
survivors, rewrite the file. -/
def add_vacancies_spec (existing : List PyDict) (vacancies : List Vacancy) :
    List PyDict :=
  let existingKeys := existing.map canonicalForm
  let new_data := vacancies.map Vacancy.to_dict
  let unique_new := new_data.filter
    (fun item => decide (canonicalForm item ∉ existingKeys))
  existing ++ unique_new

/-- The body of `JSONStorage._load_from_file` before its `except` handlers:
a missing file raises `FileNotFoundError` at `open`, empty stripped content
short-circuits to `[]`, and unparsable content raises `JSONDecodeError`
inside `json.loads` (passed in as a parameter standing for the library). -/
def load_from_file_body (json_loads : String → Except Unit (List PyDict))
    (file : Option String) : Except PyErr (List PyDict) :=
  match file with
  | Option.none => .error .fileNotFoundError
  | some content =>
    if pyStrip content = "" then .ok []
    else
      match json_loads (pyStrip content) with
      | .error _ => .error .jsonDecodeError
      | .ok data => .ok data

/-- The two `except` handlers of `_load_from_file`: `FileNotFoundError` and
`JSONDecodeError` are absorbed into the empty collection; anything else
propagates. -/
def absorb_read_errors (r : Except PyErr (List PyDict)) :
    Except PyErr (List PyDict) :=
  match r with
  | .error .fileNotFoundError => .ok []
  | .error .jsonDecodeError => .ok []
  | r => r

/-- `JSONStorage._load_from_file`: the body guarded by its two `except`
handlers. -/
def load_from_file (json_loads : String → Except Unit (List PyDict))
    (file : Option String) : Except PyErr (List PyDict) :=
  absorb_read_errors (load_from_file_body json_loads file)

/-- `criteria['keyword'].lower()`: `.lower()` on a non-string raises
`AttributeError`. -/
def pyValLower (x : PyVal) : Except PyErr String :=
  match x with
  | .flat (.pstr s) => .ok (pyLower s)
  | _ => .error .attributeError

/-- The keyword filter of `get_vacancies`, with Python's short-circuit
`or`: the description is only lowercased when the title does not match. -/
def keywordFilter (kw : String) (vs : List Vacancy) : Except PyErr (List Vacancy) :=
  filterExcept
    (fun v =>
      if strContains (pyLower v.title) kw then pure true
      else do
        let d ← pyValLower v.description
        pure (strContains d kw))
    vs

/-- A numeric operand of `>=`: comparing `avg_salary` with a non-number
raises `TypeError` in Python 3. -/
def pyValNum (x : PyVal) : Except PyErr Rat :=
  match x with
  | .flat (.pbool b) => .ok (if b then 1 else 0)
  | .flat (.pint n) => .ok (n : Rat)
  | .flat (.pfloat q) => .ok q
  | _ => .error .typeError

/-- `JSONStorage.get_vacancies` on an already-loaded collection: reconstruct
a `Vacancy` from every persisted dictionary, then narrow first by the
`keyword` criterion, then by `min_salary`; criteria other than those two
keys are never looked at. -/
def get_vacancies (data : List PyDict) (criteria : PyDict) :
    Except PyErr (List Vacancy) := do
  let vacancies ← mapExcept vacancyOfDict data
  let vacancies ←
    match List.lookup "keyword" criteria with
    | Option.none => pure vacancies
    | some kv => do
      let kw ← pyValLower kv
      keywordFilter kw vacancies
  match List.lookup "min_salary" criteria with
  | Option.none => pure vacancies
  | some mv => do
    let m ← pyValNum mv
    filterExcept (fun v => pure (decide (m ≤ v.avg_salary))) vacancies

/-- The fields of one page response that `load_vacancies` reads:
`data.get("items", [])` and `data.get("pages", 0)`. -/
structure PageData where
  items : Option (List PyDict)
  pages : Option Int

/-- The transport environment of the HH client: the outcome of the `connect`
probe, and the outcome of the GET request for each page number (an `error`
is a `requests.RequestException`). -/
structure HHEnv where
  connectOk : Bool
  page : Nat → Except Unit PageData

/-- The errors `HH.load_vacancies` can surface: `ValueError` for an empty
keyword, `ConnectionError` from the probe, `ParserError` from a transport
failure during paging. -/
inductive ApiError where
  | invalidInput : ApiError
  | connectionError : ApiError
  | parserError : ApiError
deriving DecidableEq, Repr

/-- `data.get("items", [])`. -/
def extractItems (d : PageData) : List PyDict := d.items.getD []

/-- The paging loop of `HH.load_vacancies` (`for page in range(max_pages)`):
`fuel` is the number of iterations left, `page` the current 0-based page
number, `acc` the accumulated items and `reqs` the number of page requests
issued so far. A transport error anywhere raises `ParserError`; an empty
(or absent) items list returns the accumulator; after a non-empty page the
loop also returns when `page >= data.get("pages", 0) - 1`. On success the
result carries the accumulated items and the total page-request count. -/
def load_loop (env : HHEnv) : Nat → Nat → List PyDict → Nat →
    Except ApiError (List PyDict × Nat)
  | 0, _, acc, reqs => .ok (acc, reqs)
  | fuel + 1, page, acc, reqs =>
    match env.page page with
    | .error _ => .error .parserError
    | .ok data =>
      if (extractItems data).isEmpty then .ok (acc, reqs + 1)
      else if (page : Int) ≥ data.pages.getD 0 - 1 then
        .ok (acc ++ extractItems data, reqs + 1)
      else load_loop env fuel (page + 1) (acc ++ extractItems data) (reqs + 1)

/-- `HH.load_vacancies`: reject a keyword that strips to empty before
touching the network, default `max_pages` to 2 and clamp it to 20, run the
`connect` probe, then page. (The request parameters other than the page
number are absorbed into the abstract transport `env.page`.) -/
def load_vacancies (env : HHEnv) (keyword : String) (max_pages : Option Nat) :
    Except ApiError (List PyDict × Nat) :=
  if pyStrip keyword = "" then .error .invalidInput
  else
    let mp := min (max_pages.getD 2) 20
    if env.connectOk then load_loop env mp 0 [] 0
    else .error .connectionError

/-- The predicate the keyword criterion keeps a record by: the lowercased
keyword occurs in the lowercased title, or the description is a string and
the keyword occurs in its lowercased form. -/
def matchesKeyword (kw : String) (v : Vacancy) : Bool :=
  strContains (pyLower v.title) kw ||
    (match v.description with
     | .flat (.pstr s) => strContains (pyLower s) kw
     | _ => false)

/-- A raw item for the paging scenarios. -/
def mockItem : PyDict := [("name", .flat (.pstr "Python Developer"))]

/-- Mock transport: page 0 returns one item with `pages = 1`; any further
request would fail. -/
def envOnePage : HHEnv where
  connectOk := true
  page := fun n => if n = 0 then .ok ⟨some [mockItem], some 1⟩ else .error ()

/-- Mock transport: page 0 returns an empty items list. -/
def envEmptyPage : HHEnv where
  connectOk := true
  page := fun n => if n = 0 then .ok ⟨some [], some 3⟩ else .error ()

/-- Mock transport: page 0 succeeds with more pages announced, page 1 fails
at the transport level. -/
def envFailMidway : HHEnv where
  connectOk := true
  page := fun n => if n = 0 then .ok ⟨some [mockItem], some 5⟩ else .error ()

/-- A sample record (salary bounds 100000 and 150000, so `avg_salary`
125000). -/
def vacPython : Vacancy where
  title := "Python Dev"
  url := "https://example.com/1"
  salary_from := 100000
  salary_to := 150000
  currency := .flat (.pstr "RUB")
  description := .flat (.pstr "Разработка сервисов")
  requirements := .flat (.pstr "Требования не указаны")

/-- A sample record (salary bounds 80000 and 100000, so `avg_salary`
90000). -/
def vacAnalyst : Vacancy where
  title := "Data Analyst"
  url := "https://example.com/2"
  salary_from := 80000
  salary_to := 100000
  currency := .flat (.pstr "RUB")
  description := .flat (.pstr "Анализ данных")
  requirements := .flat (.pstr "SQL")

/-- The persisted dictionary of `vacPython`. -/
def dictPython : PyDict := vacPython.to_dict

/-- The persisted dictionary of `vacAnalyst`. -/
def dictAnalyst : PyDict := vacAnalyst.to_dict

/-- A record constructed with both salary bounds set. -/
def vacBoth : Vacancy :=
  Vacancy.init (.flat (.pstr "A")) (.flat (.pstr "u"))
    (.flat (.pint 100000)) (.flat (.pint 200000))
    (.flat .pnone) (.flat (.pstr "")) (.flat (.pstr ""))

/-- A record constructed with only the lower salary bound set. -/
def vacFromOnly : Vacancy :=
  Vacancy.init (.flat (.pstr "A")) (.flat (.pstr "u"))
    (.flat (.pint 50000)) (.flat .pnone)
    (.flat .pnone) (.flat (.pstr "")) (.flat (.pstr ""))

/-- A record constructed with neither salary bound set. -/
def vacNeither : Vacancy :=
  Vacancy.init (.flat (.pstr "A")) (.flat (.pstr "u"))
    (.flat .pnone) (.flat .pnone)
    (.flat .pnone) (.flat (.pstr "")) (.flat (.pstr ""))

/-- A record constructed from a negative numeric salary input. -/
def vacNegative : Vacancy :=
  Vacancy.init (.flat (.pstr "T")) (.flat (.pstr "u"))
    (.flat (.pint (-100000))) (.flat .pnone)
    (.flat .pnone) (.flat (.pstr "")) (.flat (.pstr ""))

/-- A well-formed raw item whose name is whitespace-only. -/
def rawWhitespaceTitle : PyDict :=
  [("name", PyVal.flat (.pstr "   ")), ("alternate_url", PyVal.flat (.pstr "u"))]

/-- The record `from_hh_dict` maps `rawWhitespaceTitle` to: its title is the
empty string (whitespace-only name, stripped). -/
def vacEmptyTitle : Vacancy where
  title := ""
  url := "u"
  salary_from := 0
  salary_to := 0
  currency := .flat (.pstr "RUB")
  description := .flat (.pstr "Описание не указано")
  requirements := .flat (.pstr "Требования не указаны")

/-- The record reconstruction yields from `vacEmptyTitle`'s persisted
dictionary: the empty title re-validates to the sentinel. -/
def vacDefaultTitle : Vacancy where
  title := "Название не указано"
  url := "u"
  salary_from := 0
  salary_to := 0
  currency := .flat (.pstr "RUB")
  description := .flat (.pstr "Описание не указано")
  requirements := .flat (.pstr "Требования не указаны")

/-- A fully populated well-formed raw item. -/
def rawPythonItem : PyDict :=
  [("name", PyVal.flat (.pstr "Python Dev")),
   ("alternate_url", PyVal.flat (.pstr "https://hh.ru/vac1")),
   ("salary", PyVal.dict
     [("from", .pint 100000), ("to", .pint 150000), ("currency", .pstr "RUB")]),
   ("snippet", PyVal.dict
     [("responsibility", .pstr "write code"), ("requirement", .pstr "know Python")])]

/-- The record `from_hh_dict` maps `rawPythonItem` to. -/
def vacFromRaw : Vacancy where
  title := "Python Dev"
  url := "https://hh.ru/vac1"
  salary_from := 100000
  salary_to := 150000
  currency := .flat (.pstr "RUB")
  description := .flat (.pstr "write code")
  requirements := .flat (.pstr "know Python")

theorem dropWhile_eq_self_of_prefix {p : Char → Bool} {l m : List Char}
    (hpre : m <+: l) (hl : l.dropWhile p = l) : m.dropWhile p = m := by
  cases m with
  | nil => rfl
  | cons a t =>
    have ha : p a = false := by
      obtain ⟨r, hr⟩ := hpre
      by_contra hpa
      rw [Bool.not_eq_false] at hpa
      have hlen := congrArg List.length hl
      rw [← hr] at hlen
      rw [List.cons_append, List.dropWhile_cons, if_pos hpa] at hlen
      have hle : (List.dropWhile p (t ++ r)).length ≤ (t ++ r).length :=
        ((List.dropWhile_suffix p).sublist).length_le
      simp only [List.length_cons, List.length_append] at hlen hle
      omega
    simp [List.dropWhile_cons, ha]

theorem stripChars_idem (cs : List Char) :
    stripChars (stripChars cs) = stripChars cs := by
  have hAid : (cs.dropWhile isPyWS).dropWhile isPyWS = cs.dropWhile isPyWS :=
    List.dropWhile_idempotent _ _
  have hsuf : ((cs.dropWhile isPyWS).reverse.dropWhile isPyWS) <:+
      (cs.dropWhile isPyWS).reverse := List.dropWhile_suffix _
  have hpre : ((cs.dropWhile isPyWS).reverse.dropWhile isPyWS).reverse <+:
      cs.dropWhile isPyWS := by
    have h := List.reverse_prefix.mpr hsuf
    rwa [List.reverse_reverse] at h
  have h1 : (((cs.dropWhile isPyWS).reverse.dropWhile isPyWS).reverse).dropWhile
      isPyWS = ((cs.dropWhile isPyWS).reverse.dropWhile isPyWS).reverse :=
    dropWhile_eq_self_of_prefix hpre hAid
  unfold stripChars
  rw [h1, List.reverse_reverse, List.dropWhile_idempotent]

theorem pyStrip_idem (s : String) : pyStrip (pyStrip s) = pyStrip s := by
  unfold pyStrip
  exact congrArg String.mk (stripChars_idem s.data)

theorem ratTrunc_intCast (n : Int) : ratTrunc ((n : Int) : Rat) = n := by
  have hfloor : ∀ m : Int, Rat.floor ((m : Int) : Rat) = m := by
    intro m
    rw [Rat.floor_def']
    simp
  unfold ratTrunc
  by_cases h : ((n : Int) : Rat) < 0
  · rw [if_pos h]
    have : (-(n : Rat)) = (((-n : Int) : Int) : Rat) := by push_cast; ring
    rw [this, hfloor]
    omega
  · rw [if_neg h, hfloor]

theorem ratTrunc_nonneg {q : Rat} (h : 0 ≤ q) : 0 ≤ ratTrunc q := by
  unfold ratTrunc
  rw [if_neg (not_lt.mpr h)]
  exact Rat.le_floor.mpr (by exact_mod_cast h)

theorem pyOr_stable {x d : PyVal} (hd : d.truthy = true) :
    pyOr (pyOr x d) d = pyOr x d := by
  unfold pyOr
  by_cases hx : x.truthy = true
  · simp [hx]
  · simp [hx, hd]

theorem validate_title_stable {x : PyVal}
    (h : Vacancy.validate_title x ≠ "") :
    Vacancy.validate_title (.flat (.pstr (Vacancy.validate_title x))) =
      Vacancy.validate_title x := by
  have hdef : Vacancy.validate_title (.flat (.pstr "Название не указано")) =
      "Название не указано" := by decide
  cases x with
  | dict d => exact hdef
  | flat f =>
    cases f with
    | pstr s =>
      by_cases hs : s = ""
      · subst hs; exact hdef
      · have hred : Vacancy.validate_title (.flat (.pstr s)) =
            if s = "" then "Название не указано" else pyStrip s := rfl
        rw [hred, if_neg hs] at h ⊢
        have hred2 : Vacancy.validate_title (.flat (.pstr (pyStrip s))) =
            if pyStrip s = "" then "Название не указано" else pyStrip (pyStrip s) :=
          rfl
        rw [hred2, if_neg h]
        exact pyStrip_idem s
    | pnone => exact hdef
    | pbool b => exact hdef
    | pint n => exact hdef
    | pfloat q => exact hdef

theorem validate_url_stable (x : PyVal) :
    Vacancy.validate_url (.flat (.pstr (Vacancy.validate_url x))) =
      Vacancy.validate_url x := by
  have hdef : Vacancy.validate_url (.flat (.pstr "")) = "" := rfl
  cases x with
  | dict d => exact hdef
  | flat f =>
    cases f with
    | pstr s =>
      by_cases hs : s = ""
      · subst hs; exact hdef
      · have hred : Vacancy.validate_url (.flat (.pstr s)) =
            if s = "" then "" else pyStrip s := rfl
        rw [hred, if_neg hs]
        by_cases ht : pyStrip s = ""
        · rw [ht]; exact hdef
        · have hred2 : Vacancy.validate_url (.flat (.pstr (pyStrip s))) =
              if pyStrip s = "" then "" else pyStrip (pyStrip s) := rfl
          rw [hred2, if_neg ht]
          exact pyStrip_idem s
    | pnone => exact hdef
    | pbool b => exact hdef
    | pint n => exact hdef
    | pfloat q => exact hdef

theorem validate_salary_pint (n : Int) :
    Vacancy.validate_salary (.flat (.pint n)) = n :=
  ratTrunc_intCast n

theorem vacancyOfDict_to_dict_init (t u sf st c de re : PyVal)
    (h : Vacancy.validate_title t ≠ "") :
    vacancyOfDict (Vacancy.to_dict (Vacancy.init t u sf st c de re)) =
      .ok (Vacancy.init t u sf st c de re) := by
  have hstep : vacancyOfDict (Vacancy.to_dict (Vacancy.init t u sf st c de re)) =
      .ok (Vacancy.init
        (.flat (.pstr (Vacancy.validate_title t)))
        (.flat (.pstr (Vacancy.validate_url u)))
        (.flat (.pint (Vacancy.validate_salary sf)))
        (.flat (.pint (Vacancy.validate_salary st)))
        (pyOr c (.flat (.pstr "RUB")))
        (pyOr de (.flat (.pstr "Описание не указано")))
        (pyOr re (.flat (.pstr "Требования не указаны")))) := rfl
  rw [hstep]
  congr 1
  simp only [Vacancy.init, Vacancy.mk.injEq]
  refine ⟨?_, ?_, ?_, ?_, ?_, ?_, ?_⟩
  · exact validate_title_stable h
  · exact validate_url_stable u
  · exact validate_salary_pint _
  · exact validate_salary_pint _
  · exact pyOr_stable (by decide)
  · exact pyOr_stable (by decide)
  · exact pyOr_stable (by decide)

theorem filterExcept_eq_filter {α : Type} (p : α → Except PyErr Bool)
    (f : α → Bool) (l : List α) (h : ∀ a ∈ l, p a = .ok (f a)) :
    filterExcept p l = .ok (l.filter f) := by
  induction l with
  | nil => rfl
  | cons a as ih =>
    have h1 : filterExcept p (a :: as) =
        bind (p a) (fun b => bind (filterExcept p as)
          (fun rest => pure (if b then a :: rest else rest))) := rfl
    rw [h1, h a (List.mem_cons_self a as)]
    have h2 : bind (Except.ok (f a)) (fun b => bind (filterExcept p as)
        (fun rest => (pure (if b then a :: rest else rest) :
          Except PyErr (List α)))) =
        bind (filterExcept p as)
          (fun rest => pure (if f a then a :: rest else rest)) := rfl
    rw [h2, ih (fun b hb => h b (List.mem_cons_of_mem a hb))]
    have h3 : bind (Except.ok (as.filter f))
        (fun rest => (pure (if f a then a :: rest else rest) :
          Except PyErr (List α))) =
        .ok (if f a then a :: as.filter f else as.filter f) := rfl
    rw [h3, List.filter_cons]

theorem keywordFilter_eq_filter (kw : String) (vs : List Vacancy)
    (h : ∀ v ∈ vs, ∃ s, v.description = PyVal.flat (.pstr s)) :
    keywordFilter kw vs = .ok (vs.filter (matchesKeyword kw)) := by
  unfold keywordFilter
  refine filterExcept_eq_filter _ _ vs (fun v hv => ?_)
  obtain ⟨s, hs⟩ := h v hv
  by_cases ht : strContains (pyLower v.title) kw
  · simp only [if_pos ht]
    have hm : matchesKeyword kw v = true := by simp [matchesKeyword, ht]
    rw [hm]
    rfl
  · simp only [if_neg ht]
    rw [hs]
    have h1 : (do
        let d ← pyValLower (PyVal.flat (.pstr s))
        pure (strContains d kw) : Except PyErr Bool) =
        .ok (strContains (pyLower s) kw) := rfl
    rw [h1]
    simp [matchesKeyword, hs, ht]

theorem except_bind_ok {α β : Type} (a : α) (f : α → Except PyErr β) :
    bind (Except.ok a) f = f a := rfl

/-- C10: `avg_salary` is the mean of the two salary bounds when both are
positive, the positive bound when only one is, and 0 when neither is; in
particular it is 150000 for bounds (100000, 200000), 50000 for (50000, 0)
and 0 for (0, 0). -/
theorem avg_salary_cases (v : Vacancy) :
    (0 < v.salary_from → 0 < v.salary_to →
      v.avg_salary = ((v.salary_from : Rat) + (v.salary_to : Rat)) / 2) ∧
    (0 < v.salary_from → v.salary_to ≤ 0 → v.avg_salary = (v.salary_from : Rat)) ∧
    (v.salary_from ≤ 0 → 0 < v.salary_to → v.avg_salary = (v.salary_to : Rat)) ∧
    (v.salary_from ≤ 0 → v.salary_to ≤ 0 → v.avg_salary = 0) ∧
    vacBoth.avg_salary = 150000 ∧
    vacFromOnly.avg_salary = 50000 ∧
    vacNeither.avg_salary = 0 := by
  have hBoth : vacBoth.avg_salary = 150000 := by
    unfold Vacancy.avg_salary
    rw [if_pos ⟨by decide, by decide⟩,
      show vacBoth.salary_from = 100000 from by decide,
      show vacBoth.salary_to = 200000 from by decide]
    norm_num
  have hFrom : vacFromOnly.avg_salary = 50000 := by
    unfold Vacancy.avg_salary
    rw [if_neg (by decide :
        ¬(0 < vacFromOnly.salary_from ∧ 0 < vacFromOnly.salary_to)),
      if_pos (by decide : (0 : Int) < vacFromOnly.salary_from),
      show vacFromOnly.salary_from = 50000 from by decide]
    norm_num
  have hNeither : vacNeither.avg_salary = 0 := by
    unfold Vacancy.avg_salary
    rw [if_neg (by decide :
        ¬(0 < vacNeither.salary_from ∧ 0 < vacNeither.salary_to)),
      if_neg (by decide : ¬(0 : Int) < vacNeither.salary_from),
      if_neg (by decide : ¬(0 : Int) < vacNeither.salary_to)]
  refine ⟨?_, ?_, ?_, ?_, hBoth, hFrom, hNeither⟩
  · intro h1 h2
    unfold Vacancy.avg_salary
    rw [if_pos ⟨h1, h2⟩]
  · intro h1 h2
    unfold Vacancy.avg_salary
    rw [if_neg (fun hc => absurd hc.2 (not_lt.mpr h2)), if_pos h1]
  · intro h1 h2
    unfold Vacancy.avg_salary
    rw [if_neg (fun hc => absurd hc.1 (not_lt.mpr h1)),
      if_neg (not_lt.mpr h1), if_pos h2]
  · intro h1 h2
    unfold Vacancy.avg_salary
    rw [if_neg (fun hc => absurd hc.1 (not_lt.mpr h1)),
      if_neg (not_lt.mpr h1), if_neg (not_lt.mpr h2)]

theorem avg_salary_cases_witness :
    vacBoth.avg_salary = ((vacBoth.salary_from : Rat) + (vacBoth.salary_to : Rat)) / 2 ∧
    vacFromOnly.avg_salary = (vacFromOnly.salary_from : Rat) ∧
    vacNeither.avg_salary = 0 :=
  ⟨(avg_salary_cases vacBoth).1 (by decide) (by decide),
   (avg_salary_cases vacFromOnly).2.1 (by decide) (by decide),
   (avg_salary_cases vacNeither).2.2.2.1 (by decide) (by decide)⟩

/-- C2, counterexample: construction from the numeric input -100000 stores
the negative integer -100000 in `salary_from`, so the field is not
normalized to a non-negative integer. -/
theorem validate_salary_negative_cex :
    vacNegative.salary_from = -100000 ∧ vacNegative.salary_from < 0 := by
  constructor <;> decide

/-- C2, amended: salary validation always returns an integer and never
raises; absent (`None`), empty-string, non-numeric-string and non-scalar
input coerce to 0; integer input is preserved; the result is non-negative
whenever the numeric input is non-negative (a negative numeric input yields
the corresponding negative integer); and the spec's instances hold:
`"100000" ↦ 100000`, `150000.0 ↦ 150000`, `"invalid" ↦ 0`. -/
theorem validate_salary_normalization (n : Int) (q : Rat) (s : String)
    (d : List (String × PyFlat)) :
    Vacancy.validate_salary (.flat .pnone) = 0 ∧
    Vacancy.validate_salary (.flat (.pstr "")) = 0 ∧
    (parseFloatStr s = Option.none → Vacancy.validate_salary (.flat (.pstr s)) = 0) ∧
    Vacancy.validate_salary (.dict d) = 0 ∧
    Vacancy.validate_salary (.flat (.pint n)) = n ∧
    (0 ≤ n → 0 ≤ Vacancy.validate_salary (.flat (.pint n))) ∧
    (0 ≤ q → 0 ≤ Vacancy.validate_salary (.flat (.pfloat q))) ∧
    (∀ qq : Rat, parseFloatStr s = some qq → 0 ≤ qq →
      0 ≤ Vacancy.validate_salary (.flat (.pstr s))) ∧
    Vacancy.validate_salary (.flat (.pstr "100000")) = 100000 ∧
    Vacancy.validate_salary (.flat (.pfloat 150000)) = 150000 ∧
    Vacancy.validate_salary (.flat (.pstr "invalid")) = 0 := by
  have hred : ∀ t : String, Vacancy.validate_salary (.flat (.pstr t)) =
      if t = "" then 0 else
        match parseFloatStr t with
        | some qq => ratTrunc qq
        | Option.none => 0 := fun _ => rfl
  refine ⟨rfl, rfl, ?_, rfl, validate_salary_pint n, ?_, ?_, ?_,
    by decide, by decide, by decide⟩
  · intro hp
    rw [hred]
    by_cases hs : s = ""
    · rw [if_pos hs]
    · rw [if_neg hs, hp]
  · intro hn
    rw [validate_salary_pint n]
    exact hn
  · intro hq
    exact ratTrunc_nonneg hq
  · intro qq hp hq
    rw [hred]
    by_cases hs : s = ""
    · rw [if_pos hs]
    · rw [if_neg hs, hp]
      exact ratTrunc_nonneg hq

theorem validate_salary_normalization_witness :
    Vacancy.validate_salary (.flat (.pstr "abc")) = 0 ∧
    (0 ≤ (7 : Int) ∧ 0 ≤ Vacancy.validate_salary (.flat (.pint 7))) ∧
    (0 ≤ (5 : Rat) ∧ 0 ≤ Vacancy.validate_salary (.flat (.pfloat 5))) ∧
    0 ≤ Vacancy.validate_salary (.flat (.pstr "12")) :=
  ⟨(validate_salary_normalization 7 5 "abc" []).2.2.1 (by decide),
   ⟨by decide, (validate_salary_normalization 7 5 "abc" []).2.2.2.2.2.1 (by decide)⟩,
   ⟨by decide, (validate_salary_normalization 7 5 "abc" []).2.2.2.2.2.2.1 (by decide)⟩,
   (validate_salary_normalization 7 5 "12" []).2.2.2.2.2.2.2.1
     (((12 : Int) : Rat)) (by rfl) (by decide)⟩

/-- C1: as written, `add_vacancies` raises `TypeError` on any non-empty
input because its canonical-serialization calls are `json.dump(item,
sort_keys=True)` — `json.dump` requires a file argument (`json.dumps` was
intended), so nothing is ever persisted; the spec-modelled intended
version of `add` (with a working canonical serialization) is idempotent,
as the claim states. -/
theorem add_vacancies_dump_typeerror :
    add_vacancies [] [vacPython] = .error .typeError ∧
    ∀ (existing : List PyDict) (vs : List Vacancy),
      add_vacancies_spec (add_vacancies_spec existing vs) vs =
        add_vacancies_spec existing vs := by
  constructor
  · rfl
  · intro existing vs
    have key : ∀ (E : List PyDict) (ws : List Vacancy),
        add_vacancies_spec E ws = E ++ ((ws.map Vacancy.to_dict).filter
          (fun item => decide (canonicalForm item ∉ E.map canonicalForm))) :=
      fun _ _ => rfl
    simp only [key]
    have hnil : ((vs.map Vacancy.to_dict).filter
        (fun item => decide (canonicalForm item ∉
          (existing ++ ((vs.map Vacancy.to_dict).filter
            (fun item => decide (canonicalForm item ∉
              existing.map canonicalForm)))).map canonicalForm))) = [] := by
      rw [List.filter_eq_nil_iff]
      intro item hitem
      simp only [decide_eq_true_eq, not_not]
      rw [List.map_append, List.mem_append]
      by_cases hmem : canonicalForm item ∈ existing.map canonicalForm
      · exact Or.inl hmem
      · refine Or.inr (List.mem_map_of_mem canonicalForm ?_)
        exact List.mem_filter.mpr ⟨hitem, by simpa using hmem⟩
    rw [hnil, List.append_nil]

/-- C3, counterexample: a persisted dictionary that lacks the `title` key
(here one holding only a `description`) makes reconstruction raise
`TypeError` — missing keys are not all tolerated. -/
theorem vacancy_missing_title_cex :
    vacancyOfDict [("description", PyVal.flat (.pstr "x"))] =
      .error .typeError := rfl

/-- C3, amended: reconstruction ignores unknown keys, and a missing key
among `salary_from`, `salary_to`, `currency`, `description`,
`requirements` takes the model default; but `title` and `url` are required,
and a dictionary missing either raises `TypeError`. -/
theorem vacancy_reconstruction_tolerance (k : String) (x : PyVal)
    (item : PyDict) (t u : PyVal) :
    (k ≠ "title" → k ≠ "url" → k ≠ "salary_from" → k ≠ "salary_to" →
      k ≠ "currency" → k ≠ "description" → k ≠ "requirements" →
      vacancyOfDict ((k, x) :: item) = vacancyOfDict item) ∧
    (vacancyOfDict [("title", t), ("url", u)] =
      .ok (Vacancy.init t u (.flat .pnone) (.flat .pnone) (.flat .pnone)
        (.flat (.pstr "")) (.flat (.pstr "")))) ∧
    (List.lookup "title" item = Option.none ∨
        List.lookup "url" item = Option.none →
      vacancyOfDict item = .error .typeError) := by
  refine ⟨?_, rfl, ?_⟩
  · intro h1 h2 h3 h4 h5 h6 h7
    have hlk : ∀ key : String, key ≠ k →
        List.lookup key ((k, x) :: item) = List.lookup key item := by
      intro key hkey
      rw [List.lookup_cons, beq_false_of_ne hkey]
    unfold vacancyOfDict dictGet
    rw [hlk "title" h1.symm, hlk "url" h2.symm, hlk "salary_from" h3.symm,
      hlk "salary_to" h4.symm, hlk "currency" h5.symm,
      hlk "description" h6.symm, hlk "requirements" h7.symm]
  · intro h
    unfold vacancyOfDict
    rcases h with hm | hm
    · rw [hm]
    · rw [hm]
      cases List.lookup "title" item <;> rfl

theorem vacancy_reconstruction_tolerance_witness :
    vacancyOfDict [("extra", PyVal.flat (.pstr "v")),
        ("title", PyVal.flat (.pstr "T")), ("url", PyVal.flat (.pstr "u"))] =
      vacancyOfDict [("title", PyVal.flat (.pstr "T")),
        ("url", PyVal.flat (.pstr "u"))] ∧
    vacancyOfDict [("url", PyVal.flat (.pstr "u"))] = .error .typeError :=
  ⟨(vacancy_reconstruction_tolerance "extra" (PyVal.flat (.pstr "v"))
      [("title", PyVal.flat (.pstr "T")), ("url", PyVal.flat (.pstr "u"))]
      (PyVal.flat (.pstr "T")) (PyVal.flat (.pstr "u"))).1
      (by decide) (by decide) (by decide) (by decide) (by decide) (by decide)
      (by decide),
   (vacancy_reconstruction_tolerance "extra" (PyVal.flat (.pstr "v"))
      [("url", PyVal.flat (.pstr "u"))]
      (PyVal.flat (.pstr "T")) (PyVal.flat (.pstr "u"))).2.2 (Or.inl rfl)⟩

/-- C7: reading the store never raises — a missing backing file, a file
whose stripped content is empty, and content the JSON parser rejects are
all read as the empty collection. -/
theorem load_from_file_absorbs_errors
    (json_loads : String → Except Unit (List PyDict)) (file : Option String) :
    (∃ l, load_from_file json_loads file = .ok l) ∧
    (file = Option.none → load_from_file json_loads file = .ok []) ∧
    (∀ c, file = some c → json_loads (pyStrip c) = .error () →
      load_from_file json_loads file = .ok []) ∧
    (∀ c, file = some c → pyStrip c = "" →
      load_from_file json_loads file = .ok []) := by
  have hchar : ∀ c, load_from_file json_loads (some c) =
      if pyStrip c = "" then .ok [] else
        match json_loads (pyStrip c) with
        | .error _ => .ok []
        | .ok data => .ok data := by
    intro c
    show absorb_read_errors
      (if pyStrip c = "" then .ok [] else
        match json_loads (pyStrip c) with
        | .error _ => .error .jsonDecodeError
        | .ok data => .ok data) = _
    by_cases hc : pyStrip c = ""
    · rw [if_pos hc, if_pos hc]
      rfl
    · rw [if_neg hc, if_neg hc]
      cases json_loads (pyStrip c) <;> rfl
  refine ⟨?_, ?_, ?_, ?_⟩
  · cases file with
    | none => exact ⟨[], rfl⟩
    | some c =>
      rw [hchar]
      by_cases hc : pyStrip c = ""
      · rw [if_pos hc]
        exact ⟨[], rfl⟩
      · rw [if_neg hc]
        cases json_loads (pyStrip c) with
        | error e => exact ⟨[], rfl⟩
        | ok data => exact ⟨data, rfl⟩
  · intro hf
    subst hf
    rfl
  · intro c hf hj
    subst hf
    rw [hchar]
    by_cases hc : pyStrip c = ""
    · rw [if_pos hc]
    · rw [if_neg hc, hj]
  · intro c hf hc
    subst hf
    rw [hchar, if_pos hc]

theorem load_from_file_absorbs_errors_witness :
    load_from_file (fun _ => .error ()) Option.none = .ok [] ∧
    load_from_file (fun _ => .error ()) (some "not json") = .ok [] ∧
    load_from_file (fun _ => .error ()) (some "   ") = .ok [] :=
  ⟨(load_from_file_absorbs_errors (fun _ => .error ()) Option.none).2.1 rfl,
   (load_from_file_absorbs_errors (fun _ => .error ()) (some "not json")).2.2.1
     "not json" rfl rfl,
   (load_from_file_absorbs_errors (fun _ => .error ()) (some "   ")).2.2.2
     "   " rfl (by decide)⟩

/-- C9: a keyword that strips to the empty string (empty or
whitespace-only) makes `load_vacancies` fail with ValueError (InvalidInput)
before any connectivity probe or page request — the result is the same for
every transport environment. -/
theorem load_vacancies_empty_keyword (env env2 : HHEnv) (kw : String)
    (mp : Option Nat) (h : pyStrip kw = "") :
    load_vacancies env kw mp = .error .invalidInput ∧
    load_vacancies env kw mp = load_vacancies env2 kw mp := by
  have h1 : ∀ e : HHEnv, load_vacancies e kw mp = .error .invalidInput := by
    intro e
    unfold load_vacancies
    rw [if_pos h]
  exact ⟨h1 env, (h1 env).trans (h1 env2).symm⟩

theorem load_vacancies_empty_keyword_witness :
    load_vacancies envOnePage "" (some 2) = .error .invalidInput ∧
    load_vacancies envOnePage "   " (some 2) = .error .invalidInput :=
  ⟨(load_vacancies_empty_keyword envOnePage envEmptyPage "" (some 2) rfl).1,
   (load_vacancies_empty_keyword envOnePage envEmptyPage "   " (some 2)
     (by decide)).1⟩

/-- C5: a transport error on the current page request during paging makes
the whole operation fail with ParserError, whatever the accumulator holds —
the partial result is discarded; end to end, a mock whose page 1 fails
after a successful page 0 yields ParserError, not the one accumulated
item. -/
theorem load_vacancies_transport_failure (env : HHEnv) (fuel page reqs : Nat)
    (acc : List PyDict) (h : env.page page = .error ()) :
    load_loop env (fuel + 1) page acc reqs = .error .parserError ∧
    load_vacancies envFailMidway "python" (some 3) = .error .parserError := by
  constructor
  · unfold load_loop
    rw [h]
  · rfl

theorem load_vacancies_transport_failure_witness :
    load_loop envFailMidway 2 1 [mockItem] 1 = .error .parserError :=
  (load_vacancies_transport_failure envFailMidway 1 1 1 [mockItem] rfl).1

/-- C4: paging is sequential from page 0 for at most `max_pages` requests;
a page whose extracted items list is empty (a missing items field counts as
empty) stops paging at once, returning the accumulator with no further
request; after a non-empty page, paging also stops as soon as
`page >= pages - 1`; the spec's one-page mock yields exactly one request
and one item, and the empty-page mock yields no items after exactly one
request. -/
theorem load_vacancies_paging_termination (env : HHEnv) (fuel page reqs : Nat)
    (acc : List PyDict) (d : PageData) :
    (env.page page = .ok d → extractItems d = [] →
      load_loop env (fuel + 1) page acc reqs = .ok (acc, reqs + 1)) ∧
    (env.page page = .ok d → extractItems d ≠ [] →
      (page : Int) ≥ d.pages.getD 0 - 1 →
      load_loop env (fuel + 1) page acc reqs =
        .ok (acc ++ extractItems d, reqs + 1)) ∧
    (∀ res, load_loop env fuel page acc reqs = .ok res →
      res.2 ≤ reqs + fuel) ∧
    load_vacancies envOnePage "python" (some 2) = .ok ([mockItem], 1) ∧
    load_vacancies envEmptyPage "python" (some 2) = .ok ([], 1) := by
  refine ⟨?_, ?_, ?_, rfl, rfl⟩
  · intro h hi
    simp [load_loop, h, hi]
  · intro h hi hp
    simp [load_loop, h, hi, hp]
  · induction fuel generalizing page acc reqs with
    | zero =>
      intro res hres
      have h0 : load_loop env 0 page acc reqs = .ok (acc, reqs) := rfl
      rw [h0] at hres
      injection hres with h2
      subst h2
      omega
    | succ n ih =>
      intro res hres
      rw [show load_loop env (n + 1) page acc reqs =
          match env.page page with
          | .error _ => .error .parserError
          | .ok data =>
            if (extractItems data).isEmpty then .ok (acc, reqs + 1)
            else if (page : Int) ≥ data.pages.getD 0 - 1 then
              .ok (acc ++ extractItems data, reqs + 1)
            else load_loop env n (page + 1) (acc ++ extractItems data)
              (reqs + 1)
        from rfl] at hres
      split at hres
      · exact Except.noConfusion hres
      · split at hres
        · injection hres with h2
          have hr : res.2 = reqs + 1 := by rw [← h2]
          omega
        · split at hres
          · injection hres with h2
            have hr : res.2 = reqs + 1 := by rw [← h2]
            omega
          · have := ih _ _ _ _ hres
            omega

theorem load_vacancies_paging_termination_witness :
    load_loop envEmptyPage 1 0 [] 0 = .ok ([], 1) ∧
    load_loop envOnePage 1 0 [] 0 = .ok ([mockItem], 1) ∧
    (1 : Nat) ≤ 0 + 2 :=
  ⟨(load_vacancies_paging_termination envEmptyPage 0 0 0 []
      ⟨some [], some 3⟩).1 rfl rfl,
   (load_vacancies_paging_termination envOnePage 0 0 0 []
      ⟨some [mockItem], some 1⟩).2.1 rfl (by decide) (by decide),
   (load_vacancies_paging_termination envOnePage 2 0 0 []
      ⟨some [], some 0⟩).2.2.1 ([mockItem], 1) rfl⟩

theorem except_bind_error {α β : Type} (e : PyErr) (f : α → Except PyErr β) :
    bind (Except.error e) f = .error e := rfl

/-- C6: `get_vacancies` applies its criteria conjunctively over the
persisted collection: with no criteria the reconstructed collection is
returned whole, in storage order; a criteria entry under any key other
than `keyword` and `min_salary` is never consulted (unrecognized criteria
are ignored without error); and with both criteria present the result is
exactly the records whose lowercased title or string description contains
the lowercased keyword and whose `avg_salary` is at least the threshold. -/
theorem get_vacancies_filtering (data : List PyDict) (vs : List Vacancy)
    (c : PyDict) (k : String) (x mv : PyVal) (kw : String) (m : Rat) :
    (mapExcept vacancyOfDict data = .ok vs →
      get_vacancies data [] = .ok vs) ∧
    (k ≠ "keyword" → k ≠ "min_salary" →
      get_vacancies data ((k, x) :: c) = get_vacancies data c) ∧
    (mapExcept vacancyOfDict data = .ok vs →
      (∀ v ∈ vs, ∃ s, v.description = PyVal.flat (.pstr s)) →
      pyValNum mv = .ok m →
      get_vacancies data
          [("keyword", PyVal.flat (.pstr kw)), ("min_salary", mv)] =
        .ok (vs.filter (fun v => matchesKeyword (pyLower kw) v &&
          decide (m ≤ v.avg_salary)))) := by
  refine ⟨?_, ?_, ?_⟩
  · intro h
    unfold get_vacancies
    rw [h]
    rfl
  · intro h1 h2
    have hk : List.lookup "keyword" ((k, x) :: c) =
        List.lookup "keyword" c := by
      rw [List.lookup_cons, beq_false_of_ne h1.symm]
    have hm2 : List.lookup "min_salary" ((k, x) :: c) =
        List.lookup "min_salary" c := by
      rw [List.lookup_cons, beq_false_of_ne h2.symm]
    unfold get_vacancies
    rw [hk, hm2]
  · intro hmap hdesc hnum
    have hred : get_vacancies data
        [("keyword", PyVal.flat (.pstr kw)), ("min_salary", mv)] =
        bind (mapExcept vacancyOfDict data) (fun vacancies =>
          bind (keywordFilter (pyLower kw) vacancies) (fun vacancies2 =>
            bind (pyValNum mv) (fun mnum =>
              filterExcept (fun v => pure (decide (mnum ≤ v.avg_salary)))
                vacancies2))) := rfl
    rw [hred, hmap]
    simp only [except_bind_ok]
    rw [keywordFilter_eq_filter (pyLower kw) vs hdesc]
    simp only [except_bind_ok]
    rw [hnum]
    simp only [except_bind_ok]
    have hfe := filterExcept_eq_filter
      (fun v : Vacancy => (pure (decide (m ≤ v.avg_salary)) : Except PyErr Bool))
      (fun v : Vacancy => decide (m ≤ v.avg_salary))
      (List.filter (matchesKeyword (pyLower kw)) vs)
      (fun a _ => rfl)
    refine hfe.trans ?_
    congr 1
    rw [List.filter_filter]
    exact List.filter_congr (fun a _ => Bool.and_comm _ _)

theorem get_vacancies_filtering_witness :
    get_vacancies [dictPython, dictAnalyst] [] = .ok [vacPython, vacAnalyst] ∧
    get_vacancies [dictPython, dictAnalyst]
        [("unused", PyVal.flat (.pstr "z"))] = .ok [vacPython, vacAnalyst] ∧
    get_vacancies [dictPython, dictAnalyst]
        [("keyword", PyVal.flat (.pstr "")),
         ("min_salary", PyVal.flat (.pint 120000))] = .ok [vacPython] := by
  have hmap : mapExcept vacancyOfDict [dictPython, dictAnalyst] =
      .ok [vacPython, vacAnalyst] := rfl
  have hdesc : ∀ v ∈ [vacPython, vacAnalyst], ∃ s,
      v.description = PyVal.flat (.pstr s) := by
    intro v hv
    rcases List.mem_cons.mp hv with hev | hv2
    · exact ⟨"Разработка сервисов", by rw [hev]; rfl⟩
    rcases List.mem_cons.mp hv2 with hev | hv3
    · exact ⟨"Анализ данных", by rw [hev]; rfl⟩
    · cases hv3
  have hempty := (get_vacancies_filtering [dictPython, dictAnalyst]
    [vacPython, vacAnalyst] [] "unused" (PyVal.flat (.pstr "z"))
    (PyVal.flat (.pint 120000)) "" (((120000 : Int) : Rat))).1 hmap
  have hignore := (get_vacancies_filtering [dictPython, dictAnalyst]
    [vacPython, vacAnalyst] [] "unused" (PyVal.flat (.pstr "z"))
    (PyVal.flat (.pint 120000)) "" (((120000 : Int) : Rat))).2.1
    (by decide) (by decide)
  have hboth := (get_vacancies_filtering [dictPython, dictAnalyst]
    [vacPython, vacAnalyst] [] "unused" (PyVal.flat (.pstr "z"))
    (PyVal.flat (.pint 120000)) "" (((120000 : Int) : Rat))).2.2
    hmap hdesc rfl
  refine ⟨hempty, hignore.trans hempty, ?_⟩
  rw [hboth]
  have havg1 : vacPython.avg_salary = 125000 := by
    unfold Vacancy.avg_salary
    rw [if_pos ⟨by decide, by decide⟩]
    norm_num [show vacPython.salary_from = (100000 : Int) from rfl,
      show vacPython.salary_to = (150000 : Int) from rfl]
  have havg2 : vacAnalyst.avg_salary = 90000 := by
    unfold Vacancy.avg_salary
    rw [if_pos ⟨by decide, by decide⟩]
    norm_num [show vacAnalyst.salary_from = (80000 : Int) from rfl,
      show vacAnalyst.salary_to = (100000 : Int) from rfl]
  have hc1 : (matchesKeyword (pyLower "") vacPython &&
      decide (((120000 : Int) : Rat) ≤ vacPython.avg_salary)) = true := by
    rw [havg1]
    decide
  have hc2 : (matchesKeyword (pyLower "") vacAnalyst &&
      decide (((120000 : Int) : Rat) ≤ vacAnalyst.avg_salary)) = false := by
    rw [havg2]
    decide
  rw [List.filter_cons, List.filter_cons, List.filter_nil, hc1, hc2]
  rfl

/-- C8, counterexample: the well-formed raw item whose name is a non-empty
whitespace-only string maps to a record with empty title; serializing that
record and reconstructing it yields the sentinel title instead, so the
round trip is not the identity on every well-formed raw item. -/
theorem roundtrip_cex :
    from_hh_dict rawWhitespaceTitle = .ok vacEmptyTitle ∧
    vacancyOfDict (Vacancy.to_dict vacEmptyTitle) = .ok vacDefaultTitle ∧
    vacEmptyTitle ≠ vacDefaultTitle :=
  ⟨rfl, rfl, by decide⟩

/-- C8, amended: for every well-formed raw item whose mapped record has a
non-empty title (i.e. whose name is not a non-empty whitespace-only
string), mapping and then round-tripping through `to_dict` and
`Vacancy(**dict)` reproduces the mapped record exactly, in every field. -/
theorem roundtrip_preserves_fields (d : PyDict) (v : Vacancy)
    (h : from_hh_dict d = .ok v) (ht : v.title ≠ "") :
    vacancyOfDict (Vacancy.to_dict v) = .ok v := by
  unfold from_hh_dict at h
  cases h1 : getSubDict d "salary" with
  | error e =>
    rw [h1] at h
    rw [except_bind_error] at h
    exact Except.noConfusion h
  | ok salary =>
    rw [h1] at h
    simp only [except_bind_ok] at h
    cases h2 : getSubDict d "snippet" with
    | error e =>
      rw [h2] at h
      rw [except_bind_error] at h
      exact Except.noConfusion h
    | ok snippet =>
      rw [h2] at h
      simp only [except_bind_ok] at h
      have h' : Except.ok (Vacancy.init
          (dictGet d "name" (.flat (.pstr "")))
          (dictGet d "alternate_url" (.flat (.pstr "")))
          (.flat ((List.lookup "from" salary).getD .pnone))
          (.flat ((List.lookup "to" salary).getD .pnone))
          (.flat ((List.lookup "currency" salary).getD .pnone))
          (.flat ((List.lookup "responsibility" snippet).getD (.pstr "")))
          (.flat ((List.lookup "requirement" snippet).getD (.pstr "")))) =
          Except.ok v := h
      injection h' with hv
      rw [← hv] at ht ⊢
      exact vacancyOfDict_to_dict_init _ _ _ _ _ _ _ ht

theorem roundtrip_preserves_fields_witness :
    vacancyOfDict (Vacancy.to_dict vacFromRaw) = .ok vacFromRaw :=
  roundtrip_preserves_fields rawPythonItem vacFromRaw rfl (by decide)
